import Mathlib

/-!
# Verification of the Secret Santa assignment protocol and room state machine

Shallow embedding of the Secret Santa repository: the client-side crypto
utilities (`public/shared-utils.js`) and the Express server (room lifecycle,
registration, derangement generation, persistence).  Machine integers do not
occur; all arithmetic is on `Nat`.  Randomness (salts, shuffles, bcrypt) is
passed in explicitly as oracle parameters.  Library internals that are not
part of the repository (node-forge RSA-OAEP, CryptoJS PBKDF2, bcrypt) are
modelled from the specification's stated contracts, as flagged in the doc
comments below.
-/

/-! ## Identity codec: strings as natural numbers

forge converts the plaintext identity to a byte string before RSA.  We model
that packing as a positional encoding of the character list, base 1114113
(one more than the number of Unicode scalar values), shifting each scalar by
one so that the encoding is injective despite leading "zero" characters. -/

/-- Base of the positional character encoding: `0x110000 + 1`. -/
def charBase : Nat := 1114113

/-- Pack a character list into a natural number (little-endian, digits
shifted by one so the map is injective). -/
def encodeChars : List Char → Nat
  | [] => 0
  | c :: cs => (c.toNat + 1) + charBase * encodeChars cs

/-- Unpack a natural number into a character list; `fuel` bounds the
recursion and any `fuel ≥ n` is enough. -/
def decodeCharsAux : Nat → Nat → List Char
  | 0, _ => []
  | fuel + 1, n =>
    if n = 0 then []
    else Char.ofNat (n % charBase - 1) :: decodeCharsAux fuel (n / charBase)

/-- Unpack a natural number into a character list. -/
def decodeChars (n : Nat) : List Char := decodeCharsAux n n

/-- The numeric packing of a string's characters. -/
def strToNat (s : String) : Nat := encodeChars s.data

/-- Recover a string from its numeric packing. -/
def natToStr (n : Nat) : String := String.mk (decodeChars n)

/-! ## RSA keypairs and the assignment codec

`deriveKeyPairFromPassword` (shared-utils.js lines 23-42) stretches
`username + password + roomId` with PBKDF2 keyed by `keySalt` and feeds the
result into forge's deterministic RSA-2048 keypair generation.  The server
(`POST /api/rooms/:id/start`) encrypts each recipient identity with
RSA-OAEP/SHA-256 under the giver's public key, and
`decryptWithPrivateKey` (shared-utils.js lines 50-61) decrypts with the same
OAEP parameters, returning null on any failure. -/

/-- Modelled from the spec: forge's RSA keypair material ("2048-bit-class RSA
or equivalent", spec §4.1); the library internals are not in the repository.
A keypair is two primes with matching encryption/decryption exponents. -/
structure RSAKey where
  p : Nat
  q : Nat
  e : Nat
  d : Nat
  deriving DecidableEq

/-- The public modulus of a keypair. -/
def RSAKey.n (k : RSAKey) : Nat := k.p * k.q

/-- Modelled from the spec: well-formedness of generated RSA key material —
distinct primes and exponents that are inverses modulo `(p-1)*(q-1)`. -/
def RSAKey.Wf (k : RSAKey) : Prop :=
  k.p.Prime ∧ k.q.Prime ∧ k.p ≠ k.q ∧ k.e * k.d % ((k.p - 1) * (k.q - 1)) = 1

/-- Modelled from the spec: the server-side RSA-OAEP encryption of a
recipient identity under a public key (`publicKey.encrypt(...)`, server
lines 519-545); textbook RSA on the packed identity. -/
def rsaEncryptString (k : RSAKey) (plaintext : String) : Nat :=
  strToNat plaintext ^ k.e % k.n

/-- Modelled from the spec: `decryptWithPrivateKey` (shared-utils.js lines
50-61) — RSA decryption with the matching OAEP parameters; the source
returns null on any decryption error, hence the `Option`. -/
def decryptWithPrivateKey (ciphertext : Nat) (k : RSAKey) : Option String :=
  some (natToStr (ciphertext ^ k.d % k.n))

/-- `deriveKeyPairFromPassword` (shared-utils.js lines 23-42): concatenate
`username + password + roomId` into a seed, stretch it with the salt, and
generate the keypair deterministically from the stretched material.  The
key-stretching function (CryptoJS PBKDF2) and the seeded keypair generator
(forge) are library code, passed in as parameters. -/
def deriveKeyPairFromPassword (stretch : String → String → String)
    (keyGen : String → RSAKey)
    (username password roomId keySalt : String) : RSAKey :=
  keyGen (stretch (username ++ password ++ roomId) keySalt)

/-! ## Input sanitization and validation (server lines 96-122)

JS string primitives (`trim`, `slice`, `replace`) act on the character
sequence; for the ASCII data handled here they coincide with the `List Char`
operations below. -/

/-- The characters removed by `sanitizeString` (the regex `[<>"'&]`);
`Char.ofNat 39` is the apostrophe. -/
def strippedChars : List Char := ['<', '>', '"', Char.ofNat 39, '&']

/-- JS `String.prototype.trim`: drop whitespace from both ends. -/
def trimChars (cs : List Char) : List Char :=
  ((cs.dropWhile Char.isWhitespace).reverse.dropWhile Char.isWhitespace).reverse

/-- `sanitizeString` on the character list: trim, truncate to `maxLength`,
strip the blocked characters (server lines 96-99). -/
def sanitizeList (cs : List Char) (maxLength : Nat) : List Char :=
  ((trimChars cs).take maxLength).filter (fun c => ¬ c ∈ strippedChars)

/-- `sanitizeString(str, maxLength)` (server lines 96-99). -/
def sanitizeString (str : String) (maxLength : Nat) : String :=
  String.mk (sanitizeList str.data maxLength)

/-- `validateUsername` (server lines 101-107): sanitize to 50 characters and
require at least 2; `none` models the thrown validation error. -/
def validateUsername (username : String) : Option String :=
  let sanitized := sanitizeString username 50
  if sanitized = "" ∨ sanitized.length < 2 then none else some sanitized

/-- `validatePassword` (server lines 109-114): at least 4 characters. -/
def validatePassword (password : String) : Option String :=
  if password.length < 4 then none else some password

/-- `validateRoomName` (server lines 116-122): sanitize to 100 characters and
require non-emptiness. -/
def validateRoomName (name : String) : Option String :=
  let sanitized := sanitizeString name 100
  if sanitized = "" ∨ sanitized.length < 1 then none else some sanitized

/-! ## Data model (server line 21) -/

/-- Modelled from the spec: the bcrypt library (hashPassword/verifyPassword,
server lines 86-93) is not in the repository; a credential scheme is an
abstract one-way hash plus a verifier, threaded through every endpoint. -/
structure CredScheme where
  hash : String → String
  verify : String → String → Bool

/-- A room participant (server line 21 and the registration push at lines
367-373). -/
structure Participant where
  username : String
  passwordHash : String
  publicKey : String
  keySalt : String
  encryptedAssignment : Option String
  deriving DecidableEq

/-- The room lifecycle status strings `'open' | 'started'`. -/
inductive RoomStatus where
  | open
  | started
  deriving DecidableEq

/-- A room record (server line 21 and the literal at lines 174-182). -/
structure Room where
  id : String
  name : String
  hostUsername : String
  hostLoginHash : String
  participants : List Participant
  status : RoomStatus
  createdAt : String
  deriving DecidableEq

/-- The usernames of a room's participants, in registration order. -/
def Room.usernames (r : Room) : List String :=
  r.participants.map (fun p => p.username)

/-- A JavaScript runtime value as far as the buggy comparison in
`remove-participant` is concerned: a string, or a pending `Promise` (the
result of calling an async function without `await`), which is never equal
to any string; the payload records the value the promise would resolve
to. -/
inductive JSValue where
  | str (s : String)
  | promise (pending : String)
  deriving DecidableEq

/-! ## Derangement generation (server lines 570-605) -/

/-- One attempt of the generation loop (server lines 578-595): pair giver
`usernames[i]` with receiver `shuffled[i]`; abort the attempt (`valid =
false`) at the first giver equal to their receiver.  `none` models the
discarded attempt.  The source's `shuffled` always has the same length as
`usernames`, so the length-mismatch case is unreachable. -/
def buildAssignments : List String → List String → Option (List (String × String))
  | [], _ => some []
  | _ :: _, [] => none
  | g :: gs, s :: ss =>
    if g = s then none
    else (buildAssignments gs ss).map (fun rest => (g, s) :: rest)

/-- The retry loop `while (attempts < maxAttempts)` (server lines 577-602):
`fuel` counts the remaining attempts, `attempt` indexes into the shuffle
oracle; `none` models the final `throw`. -/
def generateAttempts (usernames : List String) (shuffles : Nat → List String) :
    Nat → Nat → Option (List (String × String))
  | 0, _ => none
  | fuel + 1, attempt =>
    match buildAssignments usernames (shuffles attempt) with
    | some a => some a
    | none => generateAttempts usernames shuffles fuel (attempt + 1)

/-- `const maxAttempts = 100` (server line 575). -/
def maxAttempts : Nat := 100

/-- `generateSecretSantaAssignments(participants)` (server lines 571-605).
The random shuffle `[...usernames].sort(() => Math.random() - 0.5)` is
supplied as the oracle `shuffles`: the `k`-th attempt sees `shuffles k`,
always some rearrangement of `usernames`. -/
def generateSecretSantaAssignments (participants : List Participant)
    (shuffles : Nat → List String) : Option (List (String × String)) :=
  generateAttempts (participants.map (fun p => p.username)) shuffles maxAttempts 0

/-! ## Starting a room: encryption and commit (server lines 479-568) -/

/-- The encryption pass over the generated assignments (server lines
519-545): look up each giver, encrypt the recipient's identity under the
giver's public key; any lookup or encryption failure throws, aborting the
whole map (`none`).  The RSA-OAEP call is the oracle `enc : publicKey →
plaintext → Option ciphertext`. -/
def encryptAssignments (enc : String → String → Option String)
    (ps : List Participant) : List (String × String) → Option (List (String × String))
  | [] => some []
  | a :: rest =>
    match ps.find? (fun p => p.username == a.1) with
    | none => none
    | some participant =>
      match enc participant.publicKey a.2 with
      | none => none
      | some ct =>
        (encryptAssignments enc ps rest).map (fun es => (a.1, ct) :: es)

/-- Mutate the first participant whose username matches `u` (the semantics
of `participants.find(...)` followed by in-place mutation). -/
def updateFirst (ps : List Participant) (u : String) (f : Participant → Participant) :
    List Participant :=
  match ps with
  | [] => []
  | p :: rest => if p.username = u then f p :: rest else p :: updateFirst rest u f

/-- The commit loop (server lines 547-553): for each encrypted assignment,
find the participant and store the ciphertext on them. -/
def commitAssignments (ps : List Participant) (eas : List (String × String)) :
    List Participant :=
  eas.foldl (fun acc ea => updateFirst acc ea.1
    (fun p => { p with encryptedAssignment := some ea.2 })) ps

/-! ## Endpoint embeddings

Each endpoint is a function from the request (plus the oracles the source
reads: the credential scheme, fresh salts, the shuffle and encryption
oracles) and the current room to a response paired with the resulting room.
Room lookup (`rooms.get`) and rate limiting happen before the embedded code
and are not part of any claim below. -/

/-- The host credential check shared by `host-auth` (lines 413-414) and
`start` (lines 494-495): bcrypt-compare `username + password` against the
stored `hostLoginHash`. -/
def hostCheck (sch : CredScheme) (r : Room) (username password : String) : Bool :=
  sch.verify (username ++ password) r.hostLoginHash

/-- The host detection inside `register` (lines 297-298): same check, but on
the *sanitized* username. -/
def registerIsHost (sch : CredScheme) (r : Room) (sanitizedUsername password : String) :
    Bool :=
  sch.verify (sanitizedUsername ++ password) r.hostLoginHash

/-- Responses of `POST /api/rooms` (create). -/
inductive CreateResult where
  | badRequest (msg : String)
  | created (roomId : String)
  deriving DecidableEq

/-- `POST /api/rooms` (server lines 153-202): validate, hash
`sanitizedUsername + hostPassword`, store an open room with no
participants.  `roomId` and `createdAt` stand for `uuidv4()` and the clock. -/
def createRoomR (sch : CredScheme) (roomId createdAt : String)
    (name hostUsername hostPassword : String) : Option Room :=
  if name = "" ∨ hostUsername = "" ∨ hostPassword = "" then none
  else
    match validateRoomName name, validateUsername hostUsername,
        validatePassword hostPassword with
    | some sanitizedName, some sanitizedUsername, some _ =>
      some { id := roomId
             name := sanitizedName
             hostUsername := sanitizedUsername
             hostLoginHash := sch.hash (sanitizedUsername ++ hostPassword)
             participants := []
             status := RoomStatus.open
             createdAt := createdAt }
    | _, _, _ => none

/-- Responses of `POST /api/rooms/:id/init-register`. -/
inductive InitRegisterResult where
  | badRequest (msg : String)
  | stateConflict (msg : String)
  | authError (msg : String)
  | ok (keySalt : String) (alreadyExists : Bool)
  deriving DecidableEq

/-- `POST /api/rooms/:id/init-register` (server lines 220-266): for an
existing participant, verify the password and return the stored salt; for a
new identity, return a fresh salt without creating anything. -/
def initRegisterR (sch : CredScheme) (freshSalt : String) (r : Room)
    (username password : String) : InitRegisterResult :=
  if username = "" ∨ password = "" then
    InitRegisterResult.badRequest "Username and password are required"
  else if r.status = RoomStatus.started then
    InitRegisterResult.stateConflict "Room has already started. Registration is closed."
  else
    match validateUsername username, validatePassword password with
    | none, _ =>
      InitRegisterResult.badRequest "Username must be at least 2 characters"
    | some _, none =>
      InitRegisterResult.badRequest "Password must be at least 4 characters"
    | some sanitizedUsername, some _ =>
      match r.participants.find? (fun p => p.username == sanitizedUsername) with
      | some existing =>
        if sch.verify password existing.passwordHash = false then
          InitRegisterResult.authError "Invalid password for this username"
        else InitRegisterResult.ok existing.keySalt true
      | none => InitRegisterResult.ok freshSalt false

/-- The request body of `POST /api/rooms/:id/register`; `publicKey = ""`
models an absent public key and `keySalt = none` an absent salt. -/
structure RegisterReq where
  username : String
  password : String
  publicKey : String
  keySalt : Option String
  deriving DecidableEq

/-- Responses of `POST /api/rooms/:id/register`. -/
inductive RegisterResult where
  | badRequest (msg : String)
  | stateConflict (msg : String)
  | authError (msg : String)
  | hostSignedIn
  | signedIn (keySalt : String)
  | registered (isHost : Bool) (keySalt : String)
  deriving DecidableEq

/-- The in-place mutation of an existing participant during re-registration
(server lines 330-335): overwrite the public key, and overwrite the salt
too when the request carries one. -/
def reRegisterUpdate (publicKey : String) (keySalt : Option String)
    (p : Participant) : Participant :=
  match keySalt with
  | some s =>
    if s ≠ "" then { p with publicKey := publicKey, keySalt := s }
    else { p with publicKey := publicKey }
  | none => { p with publicKey := publicKey }

/-- The salt stored for a brand-new participant (server lines 360-363): the
request's salt when it is a non-empty string, else a fresh
`generateKeySalt()`. -/
def newKeySalt (freshSalt : String) (keySalt : Option String) : String :=
  match keySalt with
  | some s => if s = "" then freshSalt else s
  | none => freshSalt

/-- `POST /api/rooms/:id/register` (server lines 269-396).  In order: the
presence check, the started check, validation, host detection (line 297, on
the sanitized username), the already-registered-host early return (lines
301-318), the existing-participant re-registration branch (lines 323-352,
which overwrites the public key and, when supplied, the salt), and finally
the new-participant push (lines 354-391).  `freshSalt` stands for
`generateKeySalt()`. -/
def registerR (sch : CredScheme) (freshSalt : String) (r : Room) (req : RegisterReq) :
    RegisterResult × Room :=
  if req.username = "" ∨ req.password = "" then
    (RegisterResult.badRequest "Username and password are required", r)
  else if r.status = RoomStatus.started then
    (RegisterResult.stateConflict "Room has already started. Registration is closed.", r)
  else
    match validateUsername req.username, validatePassword req.password with
    | none, _ =>
      (RegisterResult.badRequest "Username must be at least 2 characters", r)
    | some _, none =>
      (RegisterResult.badRequest "Password must be at least 4 characters", r)
    | some sanitizedUsername, some _ =>
      if registerIsHost sch r sanitizedUsername req.password ∧
          (r.participants.find? (fun p => p.username == sanitizedUsername)).isSome
      then (RegisterResult.hostSignedIn, r)
      else
        match r.participants.find? (fun p => p.username == sanitizedUsername) with
        | some existing =>
          if sch.verify req.password existing.passwordHash = false then
            (RegisterResult.authError "Invalid password for this username", r)
          else if req.publicKey ≠ "" ∧ req.publicKey ≠ "temp" then
            (RegisterResult.signedIn
              (reRegisterUpdate req.publicKey req.keySalt existing).keySalt,
             { r with participants := (updateFirst r.participants sanitizedUsername
                 (reRegisterUpdate req.publicKey req.keySalt)) })
          else (RegisterResult.signedIn existing.keySalt, r)
        | none =>
          if req.publicKey = "" then
            (RegisterResult.badRequest "Public key is required for registration", r)
          else
            (RegisterResult.registered
              (registerIsHost sch r sanitizedUsername req.password)
              (newKeySalt freshSalt req.keySalt),
             { r with participants := r.participants ++
                 [{ username := sanitizedUsername
                    passwordHash := sch.hash req.password
                    publicKey := req.publicKey
                    keySalt := newKeySalt freshSalt req.keySalt
                    encryptedAssignment := none }] })

/-- Responses of `POST /api/rooms/:id/host-auth`. -/
inductive HostAuthResult where
  | badRequest (msg : String)
  | authError (msg : String)
  | ok (roomId roomName hostUsername : String)
       (participants : List (String × Bool)) (createdAt : String)
  deriving DecidableEq

/-- `POST /api/rooms/:id/host-auth` (server lines 399-433): bcrypt-compare
the raw `username + password` against `hostLoginHash` and return the room
summary with a per-participant `hasAssignment` flag.  Read-only. -/
def hostAuthR (sch : CredScheme) (r : Room) (username password : String) :
    HostAuthResult :=
  if username = "" ∨ password = "" then
    HostAuthResult.badRequest "Username and password are required"
  else if hostCheck sch r username password = false then
    HostAuthResult.authError "Invalid host credentials"
  else
    HostAuthResult.ok r.id r.name r.hostUsername
      (r.participants.map (fun p => (p.username, p.encryptedAssignment.isSome)))
      r.createdAt

/-- The request body of `POST /api/rooms/:id/remove-participant`. -/
structure RemoveReq where
  hostUsername : String
  hostPassword : String
  username : String
  deriving DecidableEq

/-- Responses of `POST /api/rooms/:id/remove-participant`. -/
inductive RemoveResult where
  | badRequest (msg : String)
  | authError (msg : String)
  | stateConflict (msg : String)
  | notFound (msg : String)
  | ok (remaining : List String)
  deriving DecidableEq

/-- `POST /api/rooms/:id/remove-participant` (server lines 436-477).  Line
450 reads `const loginHash = hashPassword(hostUsername + hostPassword)`
*without* `await`, so `loginHash` is a pending `Promise`, and the strict
comparison `loginHash !== room.hostLoginHash` against the stored string is
always true: the embedding keeps that comparison on `JSValue`. -/
def removeParticipantR (sch : CredScheme) (r : Room) (req : RemoveReq) :
    RemoveResult × Room :=
  if req.hostUsername = "" ∨ req.hostPassword = "" ∨ req.username = "" then
    (RemoveResult.badRequest "Host username, password and participant username are required",
     r)
  else
    let loginHash := JSValue.promise (sch.hash (req.hostUsername ++ req.hostPassword))
    if loginHash ≠ JSValue.str r.hostLoginHash then
      (RemoveResult.authError "Invalid host credentials", r)
    else if r.status = RoomStatus.started then
      (RemoveResult.stateConflict "Cannot remove participants after room has started", r)
    else
      let remaining := r.participants.filter (fun p => p.username ≠ req.username)
      if remaining.length = r.participants.length then
        (RemoveResult.notFound "Participant not found", r)
      else
        (RemoveResult.ok (remaining.map (fun p => p.username)),
         { r with participants := remaining })

/-- Responses of `POST /api/rooms/:id/start`. -/
inductive StartResult where
  | badRequest (msg : String)
  | authError (msg : String)
  | stateConflict (msg : String)
  | serverError (msg : String)
  | ok (participantCount : Nat)
  deriving DecidableEq

/-- `POST /api/rooms/:id/start` (server lines 479-568).  In order: presence
check, host credential check on the raw concatenation, started check, the
two-participant minimum, the missing-public-key check, derangement
generation, the all-or-nothing encryption pass, then the commit loop and
the status flip.  A throw from generation or encryption lands in the catch
(lines 564-567) as a 500 with the room untouched. -/
def startR (sch : CredScheme) (shuffles : Nat → List String)
    (enc : String → String → Option String) (r : Room)
    (hostUsername hostPassword : String) : StartResult × Room :=
  if hostUsername = "" ∨ hostPassword = "" then
    (StartResult.badRequest "Host username and password are required", r)
  else if hostCheck sch r hostUsername hostPassword = false then
    (StartResult.authError "Invalid host credentials", r)
  else if r.status = RoomStatus.started then
    (StartResult.stateConflict "Room has already started", r)
  else if r.participants.length < 2 then
    (StartResult.badRequest "At least 2 participants are required", r)
  else if (r.participants.filter (fun p => p.publicKey = "")) ≠ [] then
    (StartResult.badRequest "Some participants are missing public keys", r)
  else
    match generateSecretSantaAssignments r.participants shuffles with
    | none =>
      (StartResult.serverError "Failed to generate valid Secret Santa assignments", r)
    | some assignments =>
      match encryptAssignments enc r.participants assignments with
      | none => (StartResult.serverError "Failed to encrypt assignment", r)
      | some encryptedAssignments =>
        (StartResult.ok r.participants.length,
         { r with participants := commitAssignments r.participants encryptedAssignments
                  status := RoomStatus.started })

/-- Responses of `POST /api/rooms/:id/login`. -/
inductive LoginResult where
  | badRequest (msg : String)
  | notFound (msg : String)
  | authError (msg : String)
  | stateConflict (msg : String)
  | ok (username roomName keySalt : String) (encryptedAssignment : Option String)
  deriving DecidableEq

/-- Whether a login response is the 404 "User not found" outcome. -/
def LoginResult.toNotFound : LoginResult → Bool
  | LoginResult.notFound _ => true
  | _ => false

/-- `POST /api/rooms/:id/login` (server lines 608-649).  The participant
lookup at line 622 compares the *raw* request username (no sanitization)
against the stored usernames; an unknown username is a 404, a wrong
password a 401, and a not-yet-started room a 400.  Read-only. -/
def loginR (sch : CredScheme) (r : Room) (username password : String) : LoginResult :=
  if username = "" ∨ password = "" then
    LoginResult.badRequest "Username and password are required"
  else
    match r.participants.find? (fun p => p.username == username) with
    | none => LoginResult.notFound "User not found in this room"
    | some participant =>
      if sch.verify password participant.passwordHash = false then
        LoginResult.authError "Invalid password"
      else if r.status ≠ RoomStatus.started then
        LoginResult.stateConflict "Room has not started yet"
      else
        LoginResult.ok participant.username r.name participant.keySalt
          participant.encryptedAssignment

/-! ## Persistence flush (server lines 45-78) -/

/-- The filesystem calls `saveData` can make, in order. -/
inductive FsOp where
  | mkdir (path : String)
  | readFile (path : String)
  | writeFile (path : String) (content : String)
  | rename (src : String) (dst : String)
  deriving DecidableEq

/-- Whether a filesystem operation is a rename (the replace step of a
write-new-then-replace pattern). -/
def FsOp.toRename : FsOp → Bool
  | FsOp.rename _ _ => true
  | _ => false

/-- The live snapshot path `ROOMS_FILE` (server line 18). -/
def roomsFile : String := "data/rooms.json"

/-- `saveData` (server lines 47-78) as the trace of filesystem operations it
performs: create the backup directory, copy the prior snapshot (when one
exists) to a timestamped backup, then write the new snapshot *directly* to
the live `rooms.json` path with `fs.writeFile`. -/
def saveData (timestamp : String) (priorSnapshot : Option String)
    (snapshot : String) : List FsOp :=
  [FsOp.mkdir "data/backups"] ++
  (match priorSnapshot with
   | some data =>
     [FsOp.readFile roomsFile,
      FsOp.writeFile ("data/backups/rooms.json." ++ timestamp ++ ".backup") data]
   | none => [FsOp.readFile roomsFile]) ++
  [FsOp.writeFile roomsFile snapshot]

/-! ## Invariants and reachable room states -/

/-- The §3 invariant: a started room has a ciphertext on every participant,
an open room on none. -/
def statusInvariant (r : Room) : Prop :=
  (r.status = RoomStatus.started →
    ∀ p ∈ r.participants, p.encryptedAssignment ≠ none) ∧
  (r.status = RoomStatus.open →
    ∀ p ∈ r.participants, p.encryptedAssignment = none)

/-- The inductive well-formedness of rooms: unique usernames plus the status
invariant. -/
def roomWF (r : Room) : Prop :=
  r.usernames.Nodup ∧
  (r.status = RoomStatus.started →
    ∀ p ∈ r.participants, p.encryptedAssignment.isSome) ∧
  (r.status = RoomStatus.open →
    ∀ p ∈ r.participants, p.encryptedAssignment = none)

/-- Room states produced by creation followed by any sequence of the
mutating endpoints (register covers re-registration; the shuffle oracle of a
start step rearranges the usernames, as `[...].sort` does). -/
inductive Reachable : Room → Prop where
  | created (sch : CredScheme) (roomId createdAt name hostUsername hostPassword : String)
      (r : Room) :
      createRoomR sch roomId createdAt name hostUsername hostPassword = some r →
      Reachable r
  | registerStep (sch : CredScheme) (freshSalt : String) (req : RegisterReq) (r : Room) :
      Reachable r → Reachable (registerR sch freshSalt r req).2
  | removeStep (sch : CredScheme) (req : RemoveReq) (r : Room) :
      Reachable r → Reachable (removeParticipantR sch r req).2
  | startStep (sch : CredScheme) (shuffles : Nat → List String)
      (enc : String → String → Option String) (hostUsername hostPassword : String)
      (r : Room) :
      Reachable r → (∀ k, (shuffles k).Perm r.usernames) →
      Reachable (startR sch shuffles enc r hostUsername hostPassword).2

/-- The identity credential scheme, used to instantiate concrete test rooms:
the proof is the password itself and verification is string equality. -/
def idScheme : CredScheme :=
  { hash := fun s => s, verify := fun s h => s == h }

/-! ## Concrete fixtures for witnesses and counterexamples -/

/-- A participant "Alice" registered under `idScheme`. -/
def aliceP : Participant :=
  { username := "Alice", passwordHash := "alicepass", publicKey := "pkA",
    keySalt := "sA", encryptedAssignment := none }

/-- A participant "Bob" registered under `idScheme`. -/
def bobP : Participant :=
  { username := "Bob", passwordHash := "bobpass", publicKey := "pkB",
    keySalt := "sB", encryptedAssignment := none }

/-- An open room under `idScheme` whose host credentials are
"Host"/"hostpass", with no participants. -/
def emptyRoom : Room :=
  { id := "rid", name := "Party", hostUsername := "Host",
    hostLoginHash := "Hosthostpass", participants := [],
    status := RoomStatus.open, createdAt := "t0" }

/-- `emptyRoom` with participant Bob. -/
def bobRoom : Room := { emptyRoom with participants := [bobP] }

/-- `emptyRoom` with participants Alice and Bob. -/
def twoRoom : Room := { emptyRoom with participants := [aliceP, bobP] }

/-- A room whose host registered as "Bob" with password " pass1234"
(leading space), so the stored concatenation proof is "Bob pass1234". -/
def hostSplitRoom : Room :=
  { id := "rid", name := "Party", hostUsername := "Bob",
    hostLoginHash := "Bob pass1234", participants := [],
    status := RoomStatus.open, createdAt := "t0" }

/-- 49 copies of the letter a followed by a space and a b: a 51-character
username whose sanitization truncates to 49 a-characters plus a space. -/
def longAB : String := String.mk (List.replicate 49 'a' ++ [' ', 'b'])

/-- 49 copies of the letter a followed by a space: a stored username that is
not a fixed point of sanitization (trim drops the trailing space). -/
def longASpace : String := String.mk (List.replicate 49 'a' ++ [' '])

/-- 49 copies of the letter a. -/
def longA : String := String.mk (List.replicate 49 'a')

/-- A re-registration request for Bob carrying a new public key and no
salt. -/
def reqBobNoSalt : RegisterReq :=
  { username := "Bob", password := "bobpass", publicKey := "pk2", keySalt := none }

/-- A re-registration request for Bob carrying a new public key and a new
salt. -/
def reqBobNewSalt : RegisterReq :=
  { username := "Bob", password := "bobpass", publicKey := "pk2",
    keySalt := some "newSalt" }

/-- Registration of the 51-character username `longAB`; stored as
`longASpace` after sanitization. -/
def c10Room1 : Room :=
  (registerR idScheme "f1" emptyRoom
    { username := longAB, password := "pass1234", publicKey := "pk1",
      keySalt := some "saltA" }).2

/-- Follow-up registration of the raw username `longASpace` into
`c10Room1`; stored as `longA` after sanitization. -/
def c10Room2 : Room :=
  (registerR idScheme "f2" c10Room1
    { username := longASpace, password := "pass1234", publicKey := "pk2",
      keySalt := some "saltB" }).2

/-! ## Theorems

### The identity codec round-trips -/

lemma char_toNat_lt_charBase_sub_one (c : Char) : c.toNat < 1114112 := by
  have h : Nat.isValidChar c.val.toNat := c.valid
  rcases h with h | ⟨_, h2⟩
  · exact Nat.lt_trans h (by norm_num)
  · exact h2

lemma encodeChars_cons (c : Char) (cs : List Char) :
    encodeChars (c :: cs) = (c.toNat + 1) + charBase * encodeChars cs := rfl

lemma decodeCharsAux_encode (cs : List Char) :
    ∀ fuel, encodeChars cs ≤ fuel → decodeCharsAux fuel (encodeChars cs) = cs := by
  induction cs with
  | nil =>
    intro fuel _
    cases fuel with
    | zero => rfl
    | succ fuel => simp [decodeCharsAux, encodeChars]
  | cons c cs ih =>
    intro fuel hfuel
    have hc : c.toNat + 1 < charBase := by
      have := char_toNat_lt_charBase_sub_one c
      unfold charBase
      omega
    have hne : encodeChars (c :: cs) ≠ 0 := by
      rw [encodeChars_cons]
      omega
    cases fuel with
    | zero => exact absurd (Nat.le_zero.mp hfuel) hne
    | succ fuel =>
      have hmod : encodeChars (c :: cs) % charBase = c.toNat + 1 := by
        rw [encodeChars_cons, Nat.add_mul_mod_self_left]
        exact Nat.mod_eq_of_lt hc
      have hdiv : encodeChars (c :: cs) / charBase = encodeChars cs := by
        rw [encodeChars_cons, Nat.add_mul_div_left _ _ (by unfold charBase; omega)]
        rw [Nat.div_eq_of_lt hc, Nat.zero_add]
      have hrest : encodeChars cs ≤ fuel := by
        have hgrow : encodeChars cs < encodeChars (c :: cs) := by
          rw [encodeChars_cons]
          have : encodeChars cs ≤ charBase * encodeChars cs :=
            Nat.le_mul_of_pos_left _ (by unfold charBase; omega)
          omega
        omega
      unfold decodeCharsAux
      rw [if_neg hne, hmod, hdiv, Nat.add_sub_cancel, Char.ofNat_toNat,
        ih fuel hrest]

lemma natToStr_strToNat (s : String) : natToStr (strToNat s) = s := by
  unfold natToStr strToNat decodeChars
  rw [decodeCharsAux_encode s.data (encodeChars s.data) (Nat.le_refl _)]

/-! ### Textbook RSA correctness -/

lemma pow_prime_cycle (p : Nat) (hp : p.Prime) (m s : Nat) :
    m ^ ((p - 1) * s + 1) ≡ m [MOD p] := by
  by_cases hdvd : p ∣ m
  · have h0 : m ≡ 0 [MOD p] := (Nat.modEq_zero_iff_dvd).mpr hdvd
    calc m ^ ((p - 1) * s + 1)
        ≡ 0 ^ ((p - 1) * s + 1) [MOD p] := h0.pow _
      _ = 0 := zero_pow (Nat.succ_ne_zero _)
      _ ≡ m [MOD p] := h0.symm
  · have hco : Nat.Coprime m p :=
      Nat.Coprime.symm ((Nat.Prime.coprime_iff_not_dvd hp).mpr hdvd)
    have heuler : m ^ Nat.totient p ≡ 1 [MOD p] := Nat.ModEq.pow_totient hco
    rw [Nat.totient_prime hp] at heuler
    calc m ^ ((p - 1) * s + 1)
        = (m ^ (p - 1)) ^ s * m := by rw [← pow_mul, ← pow_succ]
      _ ≡ 1 ^ s * m [MOD p] := ((heuler.pow s).mul_right m)
      _ = m := by rw [one_pow, one_mul]

lemma rsa_roundtrip_nat (k : RSAKey) (hk : k.Wf) (m : Nat) (hm : m < k.n) :
    (m ^ k.e % k.n) ^ k.d % k.n = m := by
  obtain ⟨hp, hq, hne, hed⟩ := hk
  have hsplit : k.e * k.d = (k.p - 1) * (k.q - 1) * (k.e * k.d / ((k.p - 1) * (k.q - 1))) + 1 := by
    conv_lhs => rw [← Nat.div_add_mod (k.e * k.d) ((k.p - 1) * (k.q - 1))]
    rw [hed, Nat.mul_comm]
  have hmodp : m ^ (k.e * k.d) ≡ m [MOD k.p] := by
    have h := pow_prime_cycle k.p hp m ((k.q - 1) * (k.e * k.d / ((k.p - 1) * (k.q - 1))))
    rw [hsplit, Nat.mul_assoc]
    exact h
  have hmodq : m ^ (k.e * k.d) ≡ m [MOD k.q] := by
    have h := pow_prime_cycle k.q hq m ((k.p - 1) * (k.e * k.d / ((k.p - 1) * (k.q - 1))))
    rw [hsplit]
    calc m ^ ((k.p - 1) * (k.q - 1) * (k.e * k.d / ((k.p - 1) * (k.q - 1))) + 1)
        = m ^ ((k.q - 1) * ((k.p - 1) * (k.e * k.d / ((k.p - 1) * (k.q - 1)))) + 1) := by
          ring_nf
      _ ≡ m [MOD k.q] := by rw [← Nat.mul_assoc] at h ⊢; exact h
  have hcop : Nat.Coprime k.p k.q := (Nat.coprime_primes hp hq).mpr hne
  have hmodn : m ^ (k.e * k.d) ≡ m [MOD k.n] :=
    (Nat.modEq_and_modEq_iff_modEq_mul hcop).mp ⟨hmodp, hmodq⟩
  have hpow : (m ^ k.e % k.n) ^ k.d ≡ m [MOD k.n] := by
    calc (m ^ k.e % k.n) ^ k.d
        ≡ (m ^ k.e) ^ k.d [MOD k.n] := (Nat.mod_modEq _ _).pow _
      _ = m ^ (k.e * k.d) := by rw [← pow_mul]
      _ ≡ m [MOD k.n] := hmodn
  have := hpow
  unfold Nat.ModEq at this
  rw [this, Nat.mod_eq_of_lt hm]

/-- C1: for every (identity, secret) pair, encrypting a plaintext identity
under the public key of the keypair derived from that identity/secret via
`deriveKeyPairFromPassword` (same roomId and keySalt) and then decrypting
the resulting ciphertext with the derived private key via
`decryptWithPrivateKey` recovers the original plaintext identity exactly —
for any key-stretching function and any generator producing well-formed key
material, whenever the packed identity fits the derived modulus. -/
theorem encrypt_decrypt_roundtrip
    (stretch : String → String → String) (keyGen : String → RSAKey)
    (hWf : ∀ s, (keyGen s).Wf)
    (username password roomId keySalt plaintext : String)
    (hfit : strToNat plaintext <
      (deriveKeyPairFromPassword stretch keyGen username password roomId keySalt).n) :
    decryptWithPrivateKey
      (rsaEncryptString
        (deriveKeyPairFromPassword stretch keyGen username password roomId keySalt)
        plaintext)
      (deriveKeyPairFromPassword stretch keyGen username password roomId keySalt) =
    some plaintext := by
  have hwf : (deriveKeyPairFromPassword stretch keyGen username password roomId keySalt).Wf :=
    hWf (stretch (username ++ password ++ roomId) keySalt)
  unfold decryptWithPrivateKey rsaEncryptString
  rw [rsa_roundtrip_nat _ hwf _ hfit, natToStr_strToNat]

/-- Witness for C1 at a concrete toy keypair (p = 5, q = 23, e = 3, d = 59)
and the identity "A". -/
theorem encrypt_decrypt_roundtrip_witness :
    decryptWithPrivateKey
      (rsaEncryptString
        (deriveKeyPairFromPassword (fun a b => a ++ b) (fun _ => ⟨5, 23, 3, 59⟩)
          "Al" "pass" "room" "salt") "A")
      (deriveKeyPairFromPassword (fun a b => a ++ b) (fun _ => ⟨5, 23, 3, 59⟩)
        "Al" "pass" "room" "salt") = some "A" :=
  encrypt_decrypt_roundtrip _ _
    (fun _ => ⟨by norm_num, by norm_num, by norm_num, by norm_num⟩)
    "Al" "pass" "room" "salt" "A" (by decide)

/-! ### Derangement generation (C2) -/

lemma buildAssignments_eq_some (gs : List String) :
    ∀ (ss : List String) (a : List (String × String)),
      buildAssignments gs ss = some a →
      gs.length ≤ ss.length ∧ a = gs.zip ss ∧ ∀ pr ∈ a, pr.1 ≠ pr.2 := by
  induction gs with
  | nil =>
    intro ss a h
    simp only [buildAssignments, Option.some.injEq] at h
    subst h
    simp
  | cons g gs ih =>
    intro ss a h
    cases ss with
    | nil => simp [buildAssignments] at h
    | cons s ss =>
      simp only [buildAssignments] at h
      by_cases hgs : g = s
      · rw [if_pos hgs] at h
        exact absurd h (by simp)
      · rw [if_neg hgs] at h
        rcases Option.map_eq_some'.mp h with ⟨rest, hrest, ha⟩
        obtain ⟨hlen, hzip, hne⟩ := ih ss rest hrest
        subst ha
        subst hzip
        refine ⟨Nat.succ_le_succ hlen, by simp, ?_⟩
        intro pr hpr
        rcases List.mem_cons.mp hpr with hpr | hpr
        · subst hpr
          exact hgs
        · exact hne pr hpr

lemma generateAttempts_eq_some (usernames : List String) (shuffles : Nat → List String) :
    ∀ (fuel attempt : Nat) (a : List (String × String)),
      generateAttempts usernames shuffles fuel attempt = some a →
      ∃ j, buildAssignments usernames (shuffles j) = some a := by
  intro fuel
  induction fuel with
  | zero => intro attempt a h; simp [generateAttempts] at h
  | succ fuel ih =>
    intro attempt a h
    rw [generateAttempts] at h
    cases hb : buildAssignments usernames (shuffles attempt) with
    | some b =>
      rw [hb] at h
      exact ⟨attempt, by rw [hb]; exact h⟩
    | none =>
      rw [hb] at h
      exact ih (attempt + 1) a h

lemma generateAttempts_eq_none (usernames : List String) (shuffles : Nat → List String) :
    ∀ (fuel attempt : Nat),
      (∀ j, attempt ≤ j → j < attempt + fuel →
        buildAssignments usernames (shuffles j) = none) →
      generateAttempts usernames shuffles fuel attempt = none := by
  intro fuel
  induction fuel with
  | zero => intro attempt _; rfl
  | succ fuel ih =>
    intro attempt hall
    rw [generateAttempts,
      hall attempt (Nat.le_refl _) (by omega)]
    exact ih (attempt + 1) (fun j h1 h2 => hall j (by omega) (by omega))

/-- C2: for every participant list with at least two distinct usernames,
whenever `generateSecretSantaAssignments` returns normally (the shuffle
oracle always rearranging the username list, as `[...].sort` does), the
result pairs each giver exactly once in order, its receivers are a
duplicate-free permutation of the username set (a bijection), and no giver
equals their receiver; the redraw loop is capped at `maxAttempts = 100`
attempts and the function throws (`none`) if every capped attempt fails to
produce a derangement. -/
theorem generateSecretSantaAssignments_spec (participants : List Participant)
    (shuffles : Nat → List String)
    (hlen : 2 ≤ participants.length)
    (hnd : (participants.map (fun p => p.username)).Nodup)
    (hperm : ∀ k, (shuffles k).Perm (participants.map (fun p => p.username))) :
    (∀ a, generateSecretSantaAssignments participants shuffles = some a →
      a.map Prod.fst = participants.map (fun p => p.username) ∧
      (a.map Prod.snd).Perm (participants.map (fun p => p.username)) ∧
      (a.map Prod.snd).Nodup ∧
      ∀ pr ∈ a, pr.1 ≠ pr.2) ∧
    maxAttempts = 100 ∧
    ((∀ k, k < maxAttempts →
        buildAssignments (participants.map (fun p => p.username)) (shuffles k) = none) →
      generateSecretSantaAssignments participants shuffles = none) := by
  refine ⟨?_, rfl, ?_⟩
  · intro a h
    obtain ⟨j, hj⟩ := generateAttempts_eq_some _ _ maxAttempts 0 a h
    obtain ⟨hle, hzip, hne⟩ := buildAssignments_eq_some _ _ _ hj
    have hlenj : (shuffles j).length = (participants.map (fun p => p.username)).length :=
      (hperm j).length_eq
    subst hzip
    have hfst : (List.zip (participants.map (fun p => p.username)) (shuffles j)).map
        Prod.fst = participants.map (fun p => p.username) :=
      List.map_fst_zip _ _ (by omega)
    have hsnd : (List.zip (participants.map (fun p => p.username)) (shuffles j)).map
        Prod.snd = shuffles j :=
      List.map_snd_zip _ _ (by omega)
    refine ⟨hfst, ?_, ?_, hne⟩
    · rw [hsnd]
      exact hperm j
    · rw [hsnd]
      exact ((hperm j).nodup_iff).mpr hnd
  · intro hall
    exact generateAttempts_eq_none _ _ maxAttempts 0 (fun j h1 h2 => hall j (by omega))

/-- Witness for C2 at a concrete two-participant room whose shuffle oracle
always swaps. -/
theorem generateSecretSantaAssignments_spec_witness :
    (∀ a, generateSecretSantaAssignments
        [{ username := "Alice", passwordHash := "pa", publicKey := "pkA",
           keySalt := "sA", encryptedAssignment := none },
         { username := "Bob", passwordHash := "pb", publicKey := "pkB",
           keySalt := "sB", encryptedAssignment := none }]
        (fun _ => ["Bob", "Alice"]) = some a →
      a.map Prod.fst = ["Alice", "Bob"] ∧
      (a.map Prod.snd).Perm ["Alice", "Bob"] ∧
      (a.map Prod.snd).Nodup ∧
      ∀ pr ∈ a, pr.1 ≠ pr.2) ∧
    maxAttempts = 100 ∧
    ((∀ k, k < maxAttempts →
        buildAssignments ["Alice", "Bob"] ((fun _ => ["Bob", "Alice"]) k) = none) →
      generateSecretSantaAssignments
        [{ username := "Alice", passwordHash := "pa", publicKey := "pkA",
           keySalt := "sA", encryptedAssignment := none },
         { username := "Bob", passwordHash := "pb", publicKey := "pkB",
           keySalt := "sB", encryptedAssignment := none }]
        (fun _ => ["Bob", "Alice"]) = none) :=
  generateSecretSantaAssignments_spec _ _ (by decide) (by decide)
    (fun k => by decide)

/-! ### The room invariant (C3) -/

lemma updateFirst_nil (u : String) (f : Participant → Participant) :
    updateFirst [] u f = [] := rfl

lemma updateFirst_cons (p : Participant) (rest : List Participant) (u : String)
    (f : Participant → Participant) :
    updateFirst (p :: rest) u f =
      if p.username = u then f p :: rest else p :: updateFirst rest u f := rfl

lemma updateFirst_map_username (ps : List Participant) (u : String)
    (f : Participant → Participant) (hf : ∀ p, (f p).username = p.username) :
    (updateFirst ps u f).map (fun p => p.username) = ps.map (fun p => p.username) := by
  induction ps with
  | nil => rfl
  | cons p rest ih =>
    rw [updateFirst_cons]
    by_cases h : p.username = u
    · rw [if_pos h]
      simp [hf]
    · rw [if_neg h]
      simp [ih]

lemma mem_updateFirst (ps : List Participant) (u : String)
    (f : Participant → Participant) (q : Participant)
    (hq : q ∈ updateFirst ps u f) : q ∈ ps ∨ ∃ p, p ∈ ps ∧ q = f p := by
  induction ps with
  | nil => simp [updateFirst_nil] at hq
  | cons p rest ih =>
    rw [updateFirst_cons] at hq
    by_cases h : p.username = u
    · rw [if_pos h] at hq
      rcases List.mem_cons.mp hq with h1 | h1
      · exact Or.inr ⟨p, List.mem_cons_self _ _, h1⟩
      · exact Or.inl (List.mem_cons_of_mem _ h1)
    · rw [if_neg h] at hq
      rcases List.mem_cons.mp hq with h1 | h1
      · exact Or.inl (h1 ▸ List.mem_cons_self _ _)
      · rcases ih h1 with h2 | ⟨p', hp', hq'⟩
        · exact Or.inl (List.mem_cons_of_mem _ h2)
        · exact Or.inr ⟨p', List.mem_cons_of_mem _ hp', hq'⟩

lemma commitAssignments_cons_ea (ps : List Participant) (ea : String × String)
    (rest : List (String × String)) :
    commitAssignments ps (ea :: rest) =
      commitAssignments
        (updateFirst ps ea.1 (fun p => { p with encryptedAssignment := some ea.2 }))
        rest := rfl

lemma commitAssignments_nil_left (eas : List (String × String)) :
    commitAssignments [] eas = [] := by
  induction eas with
  | nil => rfl
  | cons ea rest ih => rw [commitAssignments_cons_ea, updateFirst_nil, ih]

lemma commitAssignments_cons_skip (h : Participant) (eas : List (String × String)) :
    ∀ t : List Participant, (∀ ea ∈ eas, ea.1 ≠ h.username) →
      commitAssignments (h :: t) eas = h :: commitAssignments t eas := by
  induction eas with
  | nil => intro t _; rfl
  | cons ea rest ih =>
    intro t hne
    have hhead : ¬ h.username = ea.1 :=
      fun hh => (hne ea (List.mem_cons_self _ _)) hh.symm
    rw [commitAssignments_cons_ea, commitAssignments_cons_ea, updateFirst_cons,
      if_neg hhead]
    exact ih _ (fun ea' h' => hne ea' (List.mem_cons_of_mem _ h'))

lemma commitAssignments_map_username (eas : List (String × String)) :
    ∀ ps : List Participant,
      (commitAssignments ps eas).map (fun p => p.username) =
        ps.map (fun p => p.username) := by
  induction eas with
  | nil => intro ps; rfl
  | cons ea rest ih =>
    intro ps
    rw [commitAssignments_cons_ea, ih, updateFirst_map_username]
    intro p
    rfl

lemma commitAssignments_all_assigned (ps : List Participant) :
    ∀ eas : List (String × String),
      eas.map Prod.fst = ps.map (fun p => p.username) →
      (ps.map (fun p => p.username)).Nodup →
      ∀ q ∈ commitAssignments ps eas, q.encryptedAssignment.isSome := by
  induction ps with
  | nil =>
    intro eas hfst _ q hq
    have heas : eas = [] := by
      cases eas with
      | nil => rfl
      | cons ea rest => simp at hfst
    subst heas
    simp [commitAssignments] at hq
  | cons p ps ih =>
    intro eas hfst hnd q hq
    cases eas with
    | nil => simp at hfst
    | cons ea rest =>
      simp only [List.map_cons, List.cons.injEq] at hfst
      obtain ⟨hea1, hrest⟩ := hfst
      rw [commitAssignments_cons_ea, updateFirst_cons, if_pos hea1.symm] at hq
      have hpnotin : p.username ∉ ps.map (fun p => p.username) :=
        (List.nodup_cons.mp hnd).1
      have hnotin : ∀ ea' ∈ rest,
          ea'.1 ≠ ({ p with encryptedAssignment := some ea.2 } : Participant).username := by
        intro ea' h' heq
        have hmem : ea'.1 ∈ rest.map Prod.fst := List.mem_map_of_mem _ h'
        rw [hrest] at hmem
        exact hpnotin (heq ▸ hmem)
      rw [commitAssignments_cons_skip _ _ _ hnotin] at hq
      rcases List.mem_cons.mp hq with h1 | h1
      · rw [h1]
        rfl
      · exact ih rest hrest (List.nodup_cons.mp hnd).2 q h1


lemma reRegisterUpdate_username (pk : String) (ks : Option String) (p : Participant) :
    (reRegisterUpdate pk ks p).username = p.username := by
  unfold reRegisterUpdate
  cases ks with
  | none => rfl
  | some s =>
    dsimp only
    by_cases hs : s ≠ ""
    · rw [if_pos hs]
    · rw [if_neg hs]

lemma reRegisterUpdate_encryptedAssignment (pk : String) (ks : Option String)
    (p : Participant) :
    (reRegisterUpdate pk ks p).encryptedAssignment = p.encryptedAssignment := by
  unfold reRegisterUpdate
  cases ks with
  | none => rfl
  | some s =>
    dsimp only
    by_cases hs : s ≠ ""
    · rw [if_pos hs]
    · rw [if_neg hs]

lemma encryptAssignments_map_fst (enc : String → String → Option String)
    (ps : List Participant) :
    ∀ (as eas : List (String × String)), encryptAssignments enc ps as = some eas →
      eas.map Prod.fst = as.map Prod.fst := by
  intro as
  induction as with
  | nil =>
    intro eas h
    simp only [encryptAssignments, Option.some.injEq] at h
    subst h
    rfl
  | cons a rest ih =>
    intro eas h
    rw [encryptAssignments] at h
    cases hf : ps.find? (fun p => p.username == a.1) with
    | none =>
      rw [hf] at h
      exact absurd h (fun hc => Option.noConfusion hc)
    | some participant =>
      rw [hf] at h
      have h2 : (match enc participant.publicKey a.2 with
          | none => none
          | some ct =>
            Option.map (fun es => (a.1, ct) :: es) (encryptAssignments enc ps rest)) =
          some eas := h
      cases he : enc participant.publicKey a.2 with
      | none =>
        rw [he] at h2
        exact absurd h2 (fun hc => Option.noConfusion hc)
      | some ct =>
        rw [he] at h2
        have h3 : Option.map (fun es => (a.1, ct) :: es)
            (encryptAssignments enc ps rest) = some eas := h2
        rcases Option.map_eq_some'.mp h3 with ⟨es, hes, heas⟩
        subst heas
        simp [ih es hes]

lemma createRoomR_roomWF (sch : CredScheme)
    (roomId createdAt name hostUsername hostPassword : String) (r : Room)
    (h : createRoomR sch roomId createdAt name hostUsername hostPassword = some r) :
    roomWF r := by
  unfold createRoomR at h
  split at h
  · exact Option.noConfusion h
  · split at h <;>
      first
      | exact Option.noConfusion h
      | (injection h with h
         subst h
         exact ⟨List.nodup_nil,
           fun _ p hp => absurd hp (List.not_mem_nil p),
           fun _ p hp => absurd hp (List.not_mem_nil p)⟩)

lemma removeParticipantR_snd (sch : CredScheme) (r : Room) (req : RemoveReq) :
    (removeParticipantR sch r req).2 = r := by
  unfold removeParticipantR
  split
  · rfl
  · simp

lemma registerR_preserves_roomWF (sch : CredScheme) (freshSalt : String) (r : Room)
    (req : RegisterReq) (h : roomWF r) : roomWF (registerR sch freshSalt r req).2 := by
  unfold registerR
  split
  · exact h
  split
  · exact h
  rename_i hnotstarted
  split
  · exact h
  · exact h
  · rename_i su v hsu hv
    split
    · exact h
    split
    · -- existing participant: re-registration
      rename_i existing hfind
      split
      · exact h
      split
      · -- update of public key (and possibly salt)
        have husers :
            (updateFirst r.participants su
              (reRegisterUpdate req.publicKey req.keySalt)).map (fun p => p.username) =
              r.participants.map (fun p => p.username) :=
          updateFirst_map_username _ _ _
            (reRegisterUpdate_username req.publicKey req.keySalt)
        refine ⟨?_, ?_, ?_⟩
        · show (updateFirst r.participants su _).map (fun p => p.username) |>.Nodup
          rw [husers]
          exact h.1
        · intro hst q hq
          rcases mem_updateFirst _ _ _ _ hq with h1 | ⟨p', hp', hq'⟩
          · exact h.2.1 hst q h1
          · subst hq'
            rw [Option.isSome_iff_ne_none, reRegisterUpdate_encryptedAssignment,
              ← Option.isSome_iff_ne_none]
            exact h.2.1 hst p' hp'
        · intro hop q hq
          rcases mem_updateFirst _ _ _ _ hq with h1 | ⟨p', hp', hq'⟩
          · exact h.2.2 hop q h1
          · subst hq'
            rw [reRegisterUpdate_encryptedAssignment]
            exact h.2.2 hop p' hp'
      · exact h
    · -- new participant push
      rename_i hfind
      split
      · exact h
      · have hsu : su ∉ r.participants.map (fun p => p.username) := by
          intro hmem
          rcases List.mem_map.mp hmem with ⟨p', hp', hpsu⟩
          have hne := List.find?_eq_none.mp hfind p' hp'
          simp only [beq_iff_eq] at hne
          exact hne hpsu
        have hopenst : r.status = RoomStatus.open := by
          cases hs : r.status
          · rfl
          · exact absurd hs hnotstarted
        refine ⟨?_, ?_, ?_⟩
        · show ((r.participants ++ _).map (fun p => p.username)).Nodup
          rw [List.map_append, List.nodup_append]
          refine ⟨h.1, List.nodup_singleton _, ?_⟩
          intro x hx hx'
          simp only [List.map_cons, List.map_nil, List.mem_singleton] at hx'
          subst hx'
          exact hsu hx
        · intro hst
          exact absurd hst hnotstarted
        · intro _ q hq
          rcases List.mem_append.mp hq with h1 | h1
          · exact h.2.2 hopenst q h1
          · simp only [List.mem_singleton] at h1
            subst h1
            rfl

lemma startR_preserves_roomWF (sch : CredScheme) (shuffles : Nat → List String)
    (enc : String → String → Option String) (r : Room)
    (hostUsername hostPassword : String)
    (hshuf : ∀ k, (shuffles k).Perm r.usernames) (h : roomWF r) :
    roomWF (startR sch shuffles enc r hostUsername hostPassword).2 := by
  unfold startR
  split
  · exact h
  split
  · exact h
  split
  · exact h
  split
  · exact h
  split
  · exact h
  split
  · exact h
  · rename_i assignments hgen
    split
    · exact h
    · rename_i eas henc
      have hfst : eas.map Prod.fst = r.participants.map (fun p => p.username) := by
        obtain ⟨j, hj⟩ := generateAttempts_eq_some _ _ maxAttempts 0 assignments hgen
        obtain ⟨hle, hzip, _⟩ := buildAssignments_eq_some _ _ _ hj
        have hlenj : (shuffles j).length = r.usernames.length := (hshuf j).length_eq
        unfold Room.usernames at hlenj
        rw [encryptAssignments_map_fst enc r.participants assignments eas henc, hzip]
        exact List.map_fst_zip _ _ (by omega)
      refine ⟨?_, ?_, ?_⟩
      · show ((commitAssignments r.participants eas).map (fun p => p.username)).Nodup
        rw [commitAssignments_map_username]
        exact h.1
      · intro _ q hq
        exact commitAssignments_all_assigned r.participants eas hfst h.1 q hq
      · intro hop
        exact absurd hop (by simp)

lemma reachable_roomWF (r : Room) (h : Reachable r) : roomWF r := by
  induction h with
  | created sch roomId createdAt name hostUsername hostPassword r hcr =>
    exact createRoomR_roomWF _ _ _ _ _ _ _ hcr
  | registerStep sch freshSalt req r _ ih =>
    exact registerR_preserves_roomWF _ _ _ _ ih
  | removeStep sch req r _ ih =>
    rw [removeParticipantR_snd]
    exact ih
  | startStep sch shuffles enc hostUsername hostPassword r _ hshuf ih =>
    exact startR_preserves_roomWF _ _ _ _ _ _ hshuf ih

/-- C3: in every reachable room state — creation followed by any sequence
of register / re-register / remove-participant / start operations —
`status = started` implies every participant has a non-null
`encryptedAssignment`, and `status = open` implies every participant has
`encryptedAssignment = null`; every operation preserves this invariant. -/
theorem reachable_statusInvariant (r : Room) (h : Reachable r) : statusInvariant r := by
  obtain ⟨_, hstarted, hopen⟩ := reachable_roomWF r h
  exact ⟨fun hst p hp => Option.isSome_iff_ne_none.mp (hstarted hst p hp), hopen⟩

/-- Witness for C3 at a freshly created concrete room. -/
theorem reachable_statusInvariant_witness :
    statusInvariant
      { id := "rid", name := "Party", hostUsername := "Host",
        hostLoginHash := "Hosthostpass", participants := [],
        status := RoomStatus.open, createdAt := "t0" } :=
  reachable_statusInvariant _
    (Reachable.created idScheme "rid" "t0" "Party" "Host" "hostpass" _ (by decide))

/-! ### All-or-nothing start (C4) -/

/-- C4: when the host's start request passes every guard but derangement
generation fails, or encryption fails for any single participant, the whole
start operation aborts as a 500 server error with no partial commit: the
room comes back exactly as it went in, so no participant's
`encryptedAssignment` is modified and the status remains open. -/
theorem startR_all_or_nothing (sch : CredScheme) (shuffles : Nat → List String)
    (enc : String → String → Option String) (r : Room)
    (hostUsername hostPassword : String)
    (hu : hostUsername ≠ "") (hpw : hostPassword ≠ "")
    (hauth : hostCheck sch r hostUsername hostPassword = true)
    (hopen : r.status = RoomStatus.open)
    (hlen : ¬ r.participants.length < 2)
    (hkeys : r.participants.filter (fun p => p.publicKey = "") = [])
    (hfail : generateSecretSantaAssignments r.participants shuffles = none ∨
      ∃ as, generateSecretSantaAssignments r.participants shuffles = some as ∧
        encryptAssignments enc r.participants as = none) :
    (∃ msg, (startR sch shuffles enc r hostUsername hostPassword).1 =
        StartResult.serverError msg) ∧
    (startR sch shuffles enc r hostUsername hostPassword).2 = r ∧
    (startR sch shuffles enc r hostUsername hostPassword).2.status =
      RoomStatus.open := by
  have hguards : startR sch shuffles enc r hostUsername hostPassword =
      (match generateSecretSantaAssignments r.participants shuffles with
       | none =>
         (StartResult.serverError "Failed to generate valid Secret Santa assignments", r)
       | some assignments =>
         match encryptAssignments enc r.participants assignments with
         | none => (StartResult.serverError "Failed to encrypt assignment", r)
         | some encryptedAssignments =>
           (StartResult.ok r.participants.length,
            { r with
              participants := commitAssignments r.participants encryptedAssignments
              status := RoomStatus.started })) := by
    unfold startR
    rw [if_neg (by simp [hu, hpw]), if_neg (by simp [hauth]),
      if_neg (by simp [hopen]), if_neg hlen, if_neg (by simp [hkeys])]
  rcases hfail with hgen | ⟨as, hgen, henc⟩
  · have hres : startR sch shuffles enc r hostUsername hostPassword =
        (StartResult.serverError "Failed to generate valid Secret Santa assignments",
         r) := by
      rw [hguards, hgen]
    rw [hres]
    exact ⟨⟨_, rfl⟩, rfl, hopen⟩
  · have hres : startR sch shuffles enc r hostUsername hostPassword =
        (StartResult.serverError "Failed to encrypt assignment", r) := by
      rw [hguards, hgen]
      show (match encryptAssignments enc r.participants as with
            | none => (StartResult.serverError "Failed to encrypt assignment", r)
            | some encryptedAssignments =>
              (StartResult.ok r.participants.length,
               { r with
                 participants := commitAssignments r.participants encryptedAssignments
                 status := RoomStatus.started })) = _
      rw [henc]
    rw [hres]
    exact ⟨⟨_, rfl⟩, rfl, hopen⟩

/-- Witness for C4: a two-participant room whose encryption oracle fails on
every input; the start call errors and the room is unchanged. -/
theorem startR_all_or_nothing_witness :
    (∃ msg, (startR idScheme (fun _ => ["Bob", "Alice"]) (fun _ _ => none) twoRoom
        "Host" "hostpass").1 = StartResult.serverError msg) ∧
    (startR idScheme (fun _ => ["Bob", "Alice"]) (fun _ _ => none) twoRoom
        "Host" "hostpass").2 = twoRoom ∧
    (startR idScheme (fun _ => ["Bob", "Alice"]) (fun _ _ => none) twoRoom
        "Host" "hostpass").2.status = RoomStatus.open :=
  startR_all_or_nothing idScheme (fun _ => ["Bob", "Alice"]) (fun _ _ => none)
    twoRoom "Host" "hostpass" (by decide) (by decide) (by decide) (by decide)
    (by decide) (by decide)
    (Or.inr ⟨[("Alice", "Bob"), ("Bob", "Alice")], by decide, by decide⟩)

/-! ### Remove-participant can never succeed (C5, code bug) -/

/-- C5 (code bug): a remove-participant request carrying the *correct* host
credentials and naming the existing participant Bob is still rejected with
a 401 and the room is unchanged, because line 450 compares the un-awaited
`hashPassword(...)` Promise against the stored hash string, which can never
be equal. -/
theorem removeParticipant_always_rejects :
    idScheme.verify ("Host" ++ "hostpass") bobRoom.hostLoginHash = true ∧
    "Bob" ∈ bobRoom.usernames ∧
    removeParticipantR idScheme bobRoom
      { hostUsername := "Host", hostPassword := "hostpass", username := "Bob" } =
      (RemoveResult.authError "Invalid host credentials", bobRoom) := by
  decide

/-! ### Credential-failure modes reveal identity existence (C6) -/

/-- C6 counterexample: the login and init-register endpoints do *not*
return the same error outcome for an unknown identity as for a known
identity with a wrong secret — login answers 404 "User not found in this
room" versus 401 "Invalid password", and init-register answers a fresh
salt (success) versus 401. -/
theorem credential_error_counterexample :
    loginR idScheme bobRoom "Mallory" "whatever" =
      LoginResult.notFound "User not found in this room" ∧
    loginR idScheme bobRoom "Bob" "wrongpass" =
      LoginResult.authError "Invalid password" ∧
    loginR idScheme bobRoom "Mallory" "whatever" ≠
      loginR idScheme bobRoom "Bob" "wrongpass" ∧
    initRegisterR idScheme "freshSalt" bobRoom "Mallory" "whatever" =
      InitRegisterResult.ok "freshSalt" false ∧
    initRegisterR idScheme "freshSalt" bobRoom "Bob" "wrongpass" =
      InitRegisterResult.authError "Invalid password for this username" := by
  decide

/-- C6 amended: the two endpoints distinguish the cases — login answers 404
not-found for an unknown identity and 401 for a known identity with a wrong
secret, while init-register answers success with a fresh salt for an
unknown identity and 401 for a known identity with a wrong secret, so the
failure outcomes reveal whether the identity exists. -/
theorem credential_failure_modes (sch : CredScheme) (freshSalt : String) (r : Room)
    (u pw : String) (hu : u ≠ "") (hpw : pw ≠ "") :
    (r.participants.find? (fun p => p.username == u) = none →
      loginR sch r u pw = LoginResult.notFound "User not found in this room") ∧
    (∀ q, r.participants.find? (fun p => p.username == u) = some q →
      sch.verify pw q.passwordHash = false →
      loginR sch r u pw = LoginResult.authError "Invalid password") ∧
    (∀ su, r.status = RoomStatus.open → validateUsername u = some su →
      validatePassword pw = some pw →
      r.participants.find? (fun p => p.username == su) = none →
      initRegisterR sch freshSalt r u pw = InitRegisterResult.ok freshSalt false) ∧
    (∀ su q, r.status = RoomStatus.open → validateUsername u = some su →
      validatePassword pw = some pw →
      r.participants.find? (fun p => p.username == su) = some q →
      sch.verify pw q.passwordHash = false →
      initRegisterR sch freshSalt r u pw =
        InitRegisterResult.authError "Invalid password for this username") := by
  refine ⟨?_, ?_, ?_, ?_⟩
  · intro hfind
    unfold loginR
    rw [if_neg (by simp [hu, hpw]), hfind]
  · intro q hfind hver
    unfold loginR
    rw [if_neg (by simp [hu, hpw]), hfind]
    simp [hver]
  · intro su hopen hval hpv hfind
    unfold initRegisterR
    rw [if_neg (by simp [hu, hpw]), if_neg (by simp [hopen]), hval, hpv]
    show (match r.participants.find? (fun p => p.username == su) with
          | some existing =>
            if sch.verify pw existing.passwordHash = false then
              InitRegisterResult.authError "Invalid password for this username"
            else InitRegisterResult.ok existing.keySalt true
          | none => InitRegisterResult.ok freshSalt false) = _
    rw [hfind]
  · intro su q hopen hval hpv hfind hver
    unfold initRegisterR
    rw [if_neg (by simp [hu, hpw]), if_neg (by simp [hopen]), hval, hpv]
    show (match r.participants.find? (fun p => p.username == su) with
          | some existing =>
            if sch.verify pw existing.passwordHash = false then
              InitRegisterResult.authError "Invalid password for this username"
            else InitRegisterResult.ok existing.keySalt true
          | none => InitRegisterResult.ok freshSalt false) = _
    rw [hfind]
    simp [hver]

/-- Witness for C6 (amended) at the concrete room with participant Bob. -/
theorem credential_failure_modes_witness :
    loginR idScheme bobRoom "Mallory" "pass1234" =
      LoginResult.notFound "User not found in this room" ∧
    initRegisterR idScheme "fresh" bobRoom "Mallory" "pass1234" =
      InitRegisterResult.ok "fresh" false :=
  ⟨(credential_failure_modes idScheme "fresh" bobRoom "Mallory" "pass1234"
      (by decide) (by decide)).1 (by decide),
   (credential_failure_modes idScheme "fresh" bobRoom "Mallory" "pass1234"
      (by decide) (by decide)).2.2.1 "Mallory" (by decide) (by decide) (by decide)
      (by decide)⟩

/-! ### Persistence flush is not write-new-then-replace (C7, code bug) -/

/-- C7 (code bug): a `saveData` flush does retain the timestamped backup of
the prior snapshot first, but it then writes the new snapshot *directly* to
the live `rooms.json` path — there is no temp-file write followed by a
rename, so the "atomic" write the comments promise is an in-place
overwrite. -/
theorem saveData_writes_live_file_in_place :
    saveData "2024-01-01T00-00-00Z" (some "oldsnapshot") "newsnapshot" =
      [FsOp.mkdir "data/backups",
       FsOp.readFile roomsFile,
       FsOp.writeFile "data/backups/rooms.json.2024-01-01T00-00-00Z.backup"
         "oldsnapshot",
       FsOp.writeFile roomsFile "newsnapshot"] ∧
    (saveData "2024-01-01T00-00-00Z" (some "oldsnapshot") "newsnapshot").all
      (fun op => !op.toRename) = true := by
  decide

/-! ### Re-registration updates the key but can overwrite the salt (C8) -/

/-- C8 counterexample: re-registering Bob with the correct secret, a new
public key *and* a salt in the request overwrites his stored
`keySalt` — the derivation salt is not unchanged. -/
theorem reRegister_overwrites_salt_counterexample :
    bobRoom.participants.map (fun p => p.keySalt) = ["sB"] ∧
    (registerR idScheme "fresh" bobRoom reqBobNewSalt).2.participants.map
      (fun p => p.keySalt) = ["newSalt"] ∧
    (registerR idScheme "fresh" bobRoom reqBobNewSalt).1 =
      RegisterResult.signedIn "newSalt" ∧
    "newSalt" ≠ "sB" := by
  decide

lemma find?_updateFirst (su : String) (f : Participant → Participant)
    (hf : ∀ p, (f p).username = p.username) :
    ∀ (ps : List Participant) (q : Participant),
      ps.find? (fun p => p.username == su) = some q →
      (updateFirst ps su f).find? (fun p => p.username == su) = some (f q) := by
  intro ps
  induction ps with
  | nil => intro q hq; simp at hq
  | cons p rest ih =>
    intro q hq
    by_cases hp : p.username = su
    · rw [List.find?_cons_of_pos _ (by simp [hp])] at hq
      injection hq with hq
      subst hq
      rw [updateFirst_cons, if_pos hp]
      rw [List.find?_cons_of_pos _ (by simp [hf, hp])]
    · rw [List.find?_cons_of_neg _ (by simp [hp])] at hq
      rw [updateFirst_cons, if_neg hp]
      rw [List.find?_cons_of_neg _ (by simp [hp])]
      exact ih q hq

/-- C8 amended: a register call on an existing non-host identity with the
correct secret and a new public key (not the "temp" placeholder) updates
that participant's stored public key in place, creates no duplicate (the
username list and participant count are unchanged), and reports the
participant's salt back; the stored `keySalt` is unchanged whenever the
request carries no salt, but a salt supplied with the request overwrites
the stored one (and re-registering the host identity returns early without
any update). -/
theorem reRegister_updates_key_preserves_salt (sch : CredScheme) (freshSalt : String)
    (r : Room) (req : RegisterReq) (su : String) (q : Participant)
    (hu : req.username ≠ "") (hpw : req.password ≠ "")
    (hopen : r.status = RoomStatus.open)
    (hval : validateUsername req.username = some su)
    (hpv : validatePassword req.password = some req.password)
    (hnothost : registerIsHost sch r su req.password = false)
    (hfind : r.participants.find? (fun p => p.username == su) = some q)
    (hverify : sch.verify req.password q.passwordHash = true)
    (hpk1 : req.publicKey ≠ "") (hpk2 : req.publicKey ≠ "temp")
    (hnosalt : req.keySalt = none) :
    (registerR sch freshSalt r req).1 = RegisterResult.signedIn q.keySalt ∧
    (registerR sch freshSalt r req).2.participants =
      updateFirst r.participants su (fun p => { p with publicKey := req.publicKey }) ∧
    (registerR sch freshSalt r req).2.usernames = r.usernames ∧
    (registerR sch freshSalt r req).2.participants.length =
      r.participants.length ∧
    (registerR sch freshSalt r req).2.participants.find?
      (fun p => p.username == su) = some { q with publicKey := req.publicKey } := by
  have hres : registerR sch freshSalt r req =
      (RegisterResult.signedIn (reRegisterUpdate req.publicKey req.keySalt q).keySalt,
       { r with participants := (updateFirst r.participants su
           (reRegisterUpdate req.publicKey req.keySalt)) }) := by
    unfold registerR
    rw [if_neg (by simp [hu, hpw]), if_neg (by simp [hopen]), hval, hpv]
    show (if registerIsHost sch r su req.password ∧
            (r.participants.find? (fun p => p.username == su)).isSome
          then (RegisterResult.hostSignedIn, r)
          else _) = _
    rw [if_neg (by simp [hnothost])]
    show (match r.participants.find? (fun p => p.username == su) with
          | some existing =>
            if sch.verify req.password existing.passwordHash = false then
              (RegisterResult.authError "Invalid password for this username", r)
            else if req.publicKey ≠ "" ∧ req.publicKey ≠ "temp" then
              (RegisterResult.signedIn
                (reRegisterUpdate req.publicKey req.keySalt existing).keySalt,
               { r with participants := (updateFirst r.participants su
                   (reRegisterUpdate req.publicKey req.keySalt)) })
            else (RegisterResult.signedIn existing.keySalt, r)
          | none =>
            if req.publicKey = "" then
              (RegisterResult.badRequest "Public key is required for registration", r)
            else
              (RegisterResult.registered (registerIsHost sch r su req.password)
                (newKeySalt freshSalt req.keySalt),
               { r with participants := r.participants ++
                   [({ username := su
                       passwordHash := sch.hash req.password
                       publicKey := req.publicKey
                       keySalt := newKeySalt freshSalt req.keySalt
                       encryptedAssignment := none } : Participant)] })) = _
    rw [hfind]
    show (if sch.verify req.password q.passwordHash = false then
            (RegisterResult.authError "Invalid password for this username", r)
          else if req.publicKey ≠ "" ∧ req.publicKey ≠ "temp" then
            (RegisterResult.signedIn
              (reRegisterUpdate req.publicKey req.keySalt q).keySalt,
             { r with participants := (updateFirst r.participants su
                 (reRegisterUpdate req.publicKey req.keySalt)) })
          else (RegisterResult.signedIn q.keySalt, r)) = _
    rw [if_neg (by simp [hverify]), if_pos ⟨hpk1, hpk2⟩]
  rw [hnosalt] at hres
  have hfun : reRegisterUpdate req.publicKey none =
      (fun p => { p with publicKey := req.publicKey }) := funext (fun p => rfl)
  rw [hfun] at hres
  rw [hres]
  refine ⟨rfl, rfl, ?_, ?_, ?_⟩
  · show (updateFirst r.participants su _).map (fun p => p.username) =
      r.participants.map (fun p => p.username)
    exact updateFirst_map_username _ _ _ (fun p => rfl)
  · have := congrArg List.length
      (updateFirst_map_username r.participants su
        (fun p => { p with publicKey := req.publicKey }) (fun p => rfl))
    simpa using this
  · exact find?_updateFirst su (fun p => { p with publicKey := req.publicKey })
      (fun p => rfl) r.participants q hfind

/-- Witness for C8 (amended): Bob re-registers with a new public key and no
salt; the key updates, nothing is duplicated, and his salt "sB" stays. -/
theorem reRegister_updates_key_preserves_salt_witness :
    (registerR idScheme "fresh" bobRoom reqBobNoSalt).1 =
      RegisterResult.signedIn bobP.keySalt ∧
    (registerR idScheme "fresh" bobRoom reqBobNoSalt).2.participants =
      updateFirst bobRoom.participants "Bob"
        (fun p => { p with publicKey := reqBobNoSalt.publicKey }) ∧
    (registerR idScheme "fresh" bobRoom reqBobNoSalt).2.usernames =
      bobRoom.usernames ∧
    (registerR idScheme "fresh" bobRoom reqBobNoSalt).2.participants.length =
      bobRoom.participants.length ∧
    (registerR idScheme "fresh" bobRoom reqBobNoSalt).2.participants.find?
      (fun p => p.username == "Bob") =
      some { bobP with publicKey := reqBobNoSalt.publicKey } :=
  reRegister_updates_key_preserves_salt idScheme "fresh" bobRoom reqBobNoSalt
    "Bob" bobP (by decide) (by decide) (by decide) (by decide) (by decide)
    (by decide) (by decide) (by decide) (by decide) (by decide) (by decide)

/-! ### Host authentication sees only the concatenation (C9) -/

/-- C9 counterexample: at the register endpoint the host detection runs on
the *sanitized* username, so two (username, password) pairs with equal raw
concatenations — "Bob "/"pass1234" and "Bob"/" pass1234" — produce
different host-authentication outcomes against a host whose stored
concatenation is "Bob pass1234". -/
theorem register_host_detection_counterexample :
    "Bob " ++ "pass1234" = "Bob" ++ " pass1234" ∧
    (registerR idScheme "fresh" hostSplitRoom
      { username := "Bob ", password := "pass1234", publicKey := "pk",
        keySalt := none }).1 = RegisterResult.registered false "fresh" ∧
    (registerR idScheme "fresh" hostSplitRoom
      { username := "Bob", password := " pass1234", publicKey := "pk",
        keySalt := none }).1 = RegisterResult.registered true "fresh" ∧
    (registerR idScheme "fresh" hostSplitRoom
      { username := "Bob ", password := "pass1234", publicKey := "pk",
        keySalt := none }).1 ≠
      (registerR idScheme "fresh" hostSplitRoom
        { username := "Bob", password := " pass1234", publicKey := "pk",
          keySalt := none }).1 := by
  decide

/-- C9 amended: the host checks at host-auth and start depend only on the
raw concatenation `username ++ password` (and never on `hostUsername`), so
any two pairs with equal concatenations that pass the presence check get
identical endpoint outcomes; at register the host detection depends only on
the concatenation of the *sanitized* username with the password. -/
theorem host_auth_depends_only_on_concatenation (sch : CredScheme) (r r' : Room)
    (shuffles : Nat → List String) (enc : String → String → Option String)
    (u1 p1 u2 p2 : String) :
    (u1 ++ p1 = u2 ++ p2 → hostCheck sch r u1 p1 = hostCheck sch r u2 p2) ∧
    (sanitizeString u1 50 ++ p1 = sanitizeString u2 50 ++ p2 →
      registerIsHost sch r (sanitizeString u1 50) p1 =
        registerIsHost sch r (sanitizeString u2 50) p2) ∧
    (r.hostLoginHash = r'.hostLoginHash →
      hostCheck sch r u1 p1 = hostCheck sch r' u1 p1) ∧
    (u1 ≠ "" → p1 ≠ "" → u2 ≠ "" → p2 ≠ "" → u1 ++ p1 = u2 ++ p2 →
      hostAuthR sch r u1 p1 = hostAuthR sch r u2 p2) ∧
    (u1 ≠ "" → p1 ≠ "" → u2 ≠ "" → p2 ≠ "" → u1 ++ p1 = u2 ++ p2 →
      startR sch shuffles enc r u1 p1 = startR sch shuffles enc r u2 p2) := by
  refine ⟨?_, ?_, ?_, ?_, ?_⟩
  · intro hcat
    unfold hostCheck
    rw [hcat]
  · intro hcat
    unfold registerIsHost
    rw [hcat]
  · intro hh
    unfold hostCheck
    rw [hh]
  · intro h1 h2 h3 h4 hcat
    unfold hostAuthR
    rw [if_neg (show ¬(u1 = "" ∨ p1 = "") by simp [h1, h2]),
      if_neg (show ¬(u2 = "" ∨ p2 = "") by simp [h3, h4])]
    have hhc : hostCheck sch r u1 p1 = hostCheck sch r u2 p2 := by
      unfold hostCheck
      rw [hcat]
    rw [hhc]
  · intro h1 h2 h3 h4 hcat
    unfold startR
    rw [if_neg (show ¬(u1 = "" ∨ p1 = "") by simp [h1, h2]),
      if_neg (show ¬(u2 = "" ∨ p2 = "") by simp [h3, h4])]
    have hhc : hostCheck sch r u1 p1 = hostCheck sch r u2 p2 := by
      unfold hostCheck
      rw [hcat]
    rw [hhc]

/-- Witness for C9 (amended): two splits of the host's concatenated
credentials get the same check result and the same host-auth response. -/
theorem host_auth_depends_only_on_concatenation_witness :
    hostCheck idScheme hostSplitRoom "Bo" "b pass1234" =
      hostCheck idScheme hostSplitRoom "Bob" " pass1234" ∧
    hostAuthR idScheme hostSplitRoom "Bo" "b pass1234" =
      hostAuthR idScheme hostSplitRoom "Bob" " pass1234" :=
  ⟨(host_auth_depends_only_on_concatenation idScheme hostSplitRoom hostSplitRoom
      (fun _ => []) (fun _ _ => none) "Bo" "b pass1234" "Bob" " pass1234").1
      (by decide),
   (host_auth_depends_only_on_concatenation idScheme hostSplitRoom hostSplitRoom
      (fun _ => []) (fun _ _ => none) "Bo" "b pass1234" "Bob" " pass1234").2.2.2.1
      (by decide) (by decide) (by decide) (by decide) (by decide)⟩

/-! ### Sanitized registration versus raw login lookup (C10) -/

/-- C10 counterexample: stored usernames need not be fixed points of
sanitization (a 50-character truncation can end in a space).  `c10Room1`
stores the name `longASpace`; registering the raw input `longASpace` — an
input that sanitization alters to `longA` — succeeds under the altered
name, yet a later login with the raw input `longASpace` does *not* fail
with not-found: it matches the stored `longASpace` participant and proceeds
to the room-not-started 400. -/
theorem sanitize_raw_login_counterexample :
    validateUsername longASpace = some longA ∧
    longA ≠ longASpace ∧
    (registerR idScheme "f2" c10Room1
      { username := longASpace, password := "pass1234", publicKey := "pk2",
        keySalt := some "saltB" }).1 = RegisterResult.registered false "saltB" ∧
    c10Room1.usernames = [longASpace] ∧
    loginR idScheme c10Room2 longASpace "pass1234" =
      LoginResult.stateConflict "Room has not started yet" ∧
    (loginR idScheme c10Room2 longASpace "pass1234").toNotFound = false := by
  decide

/-- C10 amended: register stores and matches the sanitized username while
login compares the raw request username, so whenever sanitization alters
the input, the registration succeeds as a new participant under the
altered name, and a later login with the original raw input fails with 404
not-found *provided* no already-stored participant bears the raw input
verbatim (stored names need not be sanitization fixed points, and a raw
input equal to such a stored name logs into that participant instead). -/
theorem register_sanitized_login_raw (sch : CredScheme) (freshSalt : String)
    (r : Room) (req : RegisterReq) (su pw : String)
    (hu : req.username ≠ "") (hpw : req.password ≠ "")
    (hopen : r.status = RoomStatus.open)
    (hval : validateUsername req.username = some su)
    (hpv : validatePassword req.password = some req.password)
    (hfind : r.participants.find? (fun p => p.username == su) = none)
    (hpk : req.publicKey ≠ "")
    (halter : su ≠ req.username)
    (hnoraw : ∀ p ∈ r.participants, p.username ≠ req.username)
    (hpwne : pw ≠ "") :
    (registerR sch freshSalt r req).1 =
      RegisterResult.registered (registerIsHost sch r su req.password)
        (newKeySalt freshSalt req.keySalt) ∧
    loginR sch (registerR sch freshSalt r req).2 req.username pw =
      LoginResult.notFound "User not found in this room" := by
  have hres : registerR sch freshSalt r req =
      (RegisterResult.registered (registerIsHost sch r su req.password)
        (newKeySalt freshSalt req.keySalt),
       { r with participants := r.participants ++
           [({ username := su
               passwordHash := sch.hash req.password
               publicKey := req.publicKey
               keySalt := newKeySalt freshSalt req.keySalt
               encryptedAssignment := none } : Participant)] }) := by
    unfold registerR
    rw [if_neg (by simp [hu, hpw]), if_neg (by simp [hopen]), hval, hpv]
    show (if registerIsHost sch r su req.password ∧
            (r.participants.find? (fun p => p.username == su)).isSome
          then (RegisterResult.hostSignedIn, r)
          else _) = _
    rw [if_neg (by simp [hfind])]
    show (match r.participants.find? (fun p => p.username == su) with
          | some existing =>
            if sch.verify req.password existing.passwordHash = false then
              (RegisterResult.authError "Invalid password for this username", r)
            else if req.publicKey ≠ "" ∧ req.publicKey ≠ "temp" then
              (RegisterResult.signedIn
                (reRegisterUpdate req.publicKey req.keySalt existing).keySalt,
               { r with participants := (updateFirst r.participants su
                   (reRegisterUpdate req.publicKey req.keySalt)) })
            else (RegisterResult.signedIn existing.keySalt, r)
          | none =>
            if req.publicKey = "" then
              (RegisterResult.badRequest "Public key is required for registration", r)
            else
              (RegisterResult.registered (registerIsHost sch r su req.password)
                (newKeySalt freshSalt req.keySalt),
               { r with participants := r.participants ++
                   [({ username := su
                       passwordHash := sch.hash req.password
                       publicKey := req.publicKey
                       keySalt := newKeySalt freshSalt req.keySalt
                       encryptedAssignment := none } : Participant)] })) = _
    rw [hfind, if_neg hpk]
  refine ⟨by rw [hres], ?_⟩
  rw [hres]
  unfold loginR
  rw [if_neg (by simp [hu, hpwne])]
  have hfind2 : (r.participants ++
      [({ username := su
          passwordHash := sch.hash req.password
          publicKey := req.publicKey
          keySalt := newKeySalt freshSalt req.keySalt
          encryptedAssignment := none } : Participant)]).find?
        (fun p => p.username == req.username) = none := by
    rw [List.find?_eq_none]
    intro p hp
    rcases List.mem_append.mp hp with h1 | h1
    · simp only [beq_iff_eq]
      exact hnoraw p h1
    · simp only [List.mem_singleton] at h1
      subst h1
      simp only [beq_iff_eq]
      exact halter
  show (match (r.participants ++
      [({ username := su
          passwordHash := sch.hash req.password
          publicKey := req.publicKey
          keySalt := newKeySalt freshSalt req.keySalt
          encryptedAssignment := none } : Participant)]).find?
        (fun p => p.username == req.username) with
    | none => LoginResult.notFound "User not found in this room"
    | some participant =>
      if sch.verify pw participant.passwordHash = false then
        LoginResult.authError "Invalid password"
      else if ({ r with participants := r.participants ++
          [({ username := su
              passwordHash := sch.hash req.password
              publicKey := req.publicKey
              keySalt := newKeySalt freshSalt req.keySalt
              encryptedAssignment := none } : Participant)] } : Room).status ≠
          RoomStatus.started then
        LoginResult.stateConflict "Room has not started yet"
      else
        LoginResult.ok participant.username
          ({ r with participants := r.participants ++
              [({ username := su
                  passwordHash := sch.hash req.password
                  publicKey := req.publicKey
                  keySalt := newKeySalt freshSalt req.keySalt
                  encryptedAssignment := none } : Participant)] } : Room).name
          participant.keySalt participant.encryptedAssignment) = _
  rw [hfind2]

/-- Witness for C10 (amended): registering "Bob " (trailing space) stores
"Bob"; logging in with the raw "Bob " is a 404. -/
theorem register_sanitized_login_raw_witness :
    (registerR idScheme "fresh" emptyRoom
      { username := "Bob ", password := "pass1234", publicKey := "pk",
        keySalt := none }).1 =
      RegisterResult.registered
        (registerIsHost idScheme emptyRoom "Bob" "pass1234")
        (newKeySalt "fresh" none) ∧
    loginR idScheme
      (registerR idScheme "fresh" emptyRoom
        { username := "Bob ", password := "pass1234", publicKey := "pk",
          keySalt := none }).2 "Bob " "pass1234" =
      LoginResult.notFound "User not found in this room" :=
  register_sanitized_login_raw idScheme "fresh" emptyRoom
    { username := "Bob ", password := "pass1234", publicKey := "pk",
      keySalt := none } "Bob" "pass1234" (by decide) (by decide) (by decide)
    (by decide) (by decide) (by decide) (by decide) (by decide)
    (by intro p hp; simp [emptyRoom] at hp) (by decide)
